import Mathlib

/-!
Verification of the PolymarketSocial squad leaderboard / weekly-winner
subsystem (Express router in `src/routes/squads` of the repository).

The embedding models the computational core of the two handlers
`GET /api/squads/:id/leaderboard` and `POST /api/squads/:id/calculate-winner`:

* JavaScript numbers are modelled as `ℚ` (exact rationals; the source uses
  sums, comparisons and 2-decimal rounding only), epoch timestamps as `ℤ`,
  counts/ids as `ℕ`.
* JSON fields that may be absent or `null` are `Option`-valued; JavaScript
  truthiness tests (`!x`, `x || d`, `x ? _ : _`) are modelled explicitly
  (`0`, `""`, `null`/`undefined` are falsy).
* The external market-data service and the database are oracles: their
  responses are parameters (`FetchOutcome`, `MembersFetch`, `Bool` failure
  flags) and the handlers are pure functions of those responses.
* The in-process `NodeCache` (`stdTTL: 30` seconds) is an association list
  from string keys to values paired with their expiry time in epoch
  milliseconds; `node-cache` marks an entry expired exactly when
  `expiry < now` and `set` stores `expiry = now + ttl*1000`.
-/

namespace PolymarketSocial

/-- One closed position returned by
`GET data-api.polymarket.com/closed-positions`.  The handler reads only
`pos.realizedPnl` (defaulted with `|| 0`) and `pos.timestamp` (epoch
seconds, tested for truthiness with `!timestamp`), so both are optional. -/
structure ClosedPosition where
  realizedPnl : Option ℚ
  timestamp : Option ℤ
deriving DecidableEq, Repr

/-- A row of the `users` table as used by the leaderboard handler. -/
structure User where
  evmAddress : String
  username : Option String
  avatarUrl : Option String
  polymarketUserAddress : Option String
deriving DecidableEq, Repr

/-- One entry of the leaderboard produced by the query handler. -/
structure LeaderboardEntry where
  evmAddress : String
  username : String
  avatarUrl : String
  totalLivePnl : ℚ
deriving DecidableEq, Repr

/-- JavaScript `x || d` for an optional string (`null`/`undefined` and `""`
are falsy). -/
def jsOrStr (v : Option String) (d : String) : String :=
  match v with
  | some s => if s = "" then d else s
  | none => d

/-- JavaScript truthiness of an optional string. -/
def strTruthy (v : Option String) : Bool :=
  match v with
  | some s => decide (s ≠ "")
  | none => false

/-- JavaScript truthiness of an optional number. -/
def intTruthy (v : Option ℤ) : Bool :=
  match v with
  | some s => decide (s ≠ 0)
  | none => false

/-- `parseFloat(x.toFixed(2))`: rounding to 2 decimal places.  ECMAScript
`toFixed` picks the integer `n` minimising `|n / 10^2 - x|`, taking the
larger `n` on ties, i.e. `⌊100x + 1/2⌋ / 100`. -/
def round2 (q : ℚ) : ℚ := (⌊q * 100 + 1 / 2⌋ : ℤ) / 100

/-- The predicate of the `closedPositions.filter` call in the leaderboard
handler: `if (!timestamp) return false; return timestamp >= startTimestamp`. -/
def keepsPosition (s : ℤ) (p : ClosedPosition) : Bool :=
  match p.timestamp with
  | none => false
  | some t => if t = 0 then false else decide (s ≤ t)

/-- `filteredClosedPositions` of the leaderboard handler: the parsed JSON
body (`some l` when it is an array, `none` otherwise) is filtered by the
window cutoff only when `startTimestamp` is truthy and the body is an
array; otherwise it is passed through unchanged. -/
def filteredClosedPositions (startTs : Option ℤ) (closed : Option (List ClosedPosition)) :
    Option (List ClosedPosition) :=
  match startTs, closed with
  | some s, some l => if s ≠ 0 then some (l.filter (keepsPosition s)) else some l
  | _, _ => closed

/-- `realizedPnl`: `Array.isArray(x) ? x.reduce((sum, pos) => sum + (pos.realizedPnl || 0), 0) : 0`. -/
def realizedSum (closed : Option (List ClosedPosition)) : ℚ :=
  match closed with
  | some l => l.foldl (fun sum pos => sum + pos.realizedPnl.getD 0) 0
  | none => 0

/-- `openPositionsValue = timeframe === 'all' ? (valueData?.value || 0) : 0`. -/
def openPositionsValue (tf : String) (valueData : Option ℚ) : ℚ :=
  if tf = "all" then valueData.getD 0 else 0

/-- The member total of the query handler:
`parseFloat((realizedPnl + openPositionsValue).toFixed(2))` where the
realized sum ranges over the window-filtered closed positions. -/
def totalLivePnlOf (tf : String) (startTs : Option ℤ)
    (closed : Option (List ClosedPosition)) (valueData : Option ℚ) : ℚ :=
  round2 (realizedSum (filteredClosedPositions startTs closed) + openPositionsValue tf valueData)

/-- Avatar URL generator used throughout the router. -/
def dicebear (seed : String) : String :=
  "https://api.dicebear.com/9.x/pixel-art/svg?seed=" ++ seed

/-- The outcome of the per-member pair of market-data fetches
(`closed-positions` and `value`, issued in parallel).  `throws` models a
rejected fetch promise (caught by the handler's try/catch), `httpError`
models `!closedResponse.ok || !valueResponse.ok`, and `success` carries
the two parsed JSON bodies (`none` for a non-array / missing-field body). -/
inductive FetchOutcome where
  | throws
  | httpError
  | success (closedPositions : Option (List ClosedPosition)) (valueData : Option ℚ)
deriving DecidableEq, Repr

/-- The leaderboard entry skeleton shared by every return site of the
per-member closure in the query handler (lines 402-490 of the router). -/
def baseEntry (u : User) (pnl : ℚ) : LeaderboardEntry :=
  { evmAddress := u.evmAddress
    username := jsOrStr u.username "Anonymous"
    avatarUrl := jsOrStr u.avatarUrl (dicebear u.evmAddress)
    totalLivePnl := pnl }

/-- The per-member closure of the query handler, as a function of the
fetch outcome.  The second component counts the upstream market-data
requests issued for this member (two parallel fetches, or none when the
member has no truthy `polymarketUserAddress`). -/
def memberEntry (tf : String) (startTs : Option ℤ) (u : User) (oc : FetchOutcome) :
    LeaderboardEntry × ℕ :=
  if strTruthy u.polymarketUserAddress then
    match oc with
    | .throws => (baseEntry u 0, 2)
    | .httpError => (baseEntry u 0, 2)
    | .success closed valueData => (baseEntry u (totalLivePnlOf tf startTs closed valueData), 2)
  else
    (baseEntry u 0, 0)

/-- `Promise.all(users.map(...))` of the query handler: one entry per
member, the fetch outcomes supplied by the oracle `ocs`. -/
def buildEntries (tf : String) (startTs : Option ℤ) (users : List User)
    (ocs : User → FetchOutcome) : List LeaderboardEntry :=
  users.map fun u => (memberEntry tf startTs u (ocs u)).1

/-- Total upstream market-data requests issued by one fresh leaderboard
computation. -/
def buildCalls (tf : String) (startTs : Option ℤ) (users : List User)
    (ocs : User → FetchOutcome) : ℕ :=
  (users.map fun u => (memberEntry tf startTs u (ocs u)).2).sum

/-- `leaderboard.sort((a, b) => b.totalLivePnl - a.totalLivePnl)`:
JavaScript `Array.prototype.sort` is a stable sort, and this comparator
orders by total PnL descending; the unique stable result is that of a
stable merge sort under `b.totalLivePnl ≤ a.totalLivePnl`. -/
def sortLeaderboard (l : List LeaderboardEntry) : List LeaderboardEntry :=
  l.mergeSort fun a b => decide (b.totalLivePnl ≤ a.totalLivePnl)

/-- `req.query.timeframe as string || 'all'`: an absent or empty
timeframe query parameter falls back to `'all'`. -/
def effTimeframe (q : Option String) : String :=
  match q with
  | some s => if s = "" then "all" else s
  | none => "all"

/-- Decimal digit character (`'0'` + d). -/
def decDigitChar (d : ℕ) : Char := Char.ofNat (48 + d)

/-- Decimal digit expansion of a natural number, most significant digit
first — the character sequence of a JavaScript template literal
`${n}` for a nonnegative integer `n`. -/
def natToDecChars (n : ℕ) : List Char :=
  if _h : n < 10 then [decDigitChar n]
  else natToDecChars (n / 10) ++ [decDigitChar (n % 10)]
decreasing_by exact Nat.div_lt_self (by omega) (by omega)

/-- Decimal string of a natural number. -/
def natToDecString (n : ℕ) : String := ⟨natToDecChars n⟩

/-- Cache key of the query handler: `` `leaderboard:${squadId}:${timeframe}` ``. -/
def lbCacheKey (squadId : ℕ) (tf : String) : String :=
  "leaderboard:" ++ natToDecString squadId ++ ":" ++ tf

/-- Cache key read by the winner handler: `` `leaderboard:${squadId}` ``
(no timeframe segment). -/
def winnerCacheKey (squadId : ℕ) : String :=
  "leaderboard:" ++ natToDecString squadId

/-- The cached leaderboard object `{ leaderboard }`. -/
abbrev LB := List LeaderboardEntry

/-- The in-process `NodeCache` with `stdTTL: 30`: key, value and expiry
time in epoch milliseconds. -/
abbrev Cache := List (String × LB × ℤ)

/-- `pnlCache.get(key)` at time `now` (ms): `node-cache` reports a miss
exactly when the stored expiry lies strictly before `now`. -/
def cacheGet (now : ℤ) (c : Cache) (k : String) : Option LB :=
  match c.lookup k with
  | some (v, t) => if t < now then none else some v
  | none => none

/-- `pnlCache.set(key, value)` at time `now` (ms): unconditional
overwrite, expiry reset to `now + 30000` (`stdTTL: 30` seconds). -/
def cacheSet (now : ℤ) (c : Cache) (k : String) (v : LB) : Cache :=
  (k, v, now + 30000) :: c.filter fun e => decide (e.1 ≠ k)

/-- The cache-relevant skeleton of the query handler after the
membership check: check the cache under `leaderboard:<squad>:<timeframe>`;
on a hit return the cached object unchanged, on a miss build the sorted
leaderboard from the members' fetch outcomes, write it back and return
it.  Result components: response body, cache state after the request,
number of fresh computations, number of upstream market-data requests. -/
def leaderboardQuery (now : ℤ) (c : Cache) (squadId : ℕ) (tfq : Option String)
    (startTs : Option ℤ) (users : List User) (ocs : User → FetchOutcome) :
    LB × Cache × ℕ × ℕ :=
  let tf := effTimeframe tfq
  let k := lbCacheKey squadId tf
  match cacheGet now c k with
  | some v => (v, c, 0, 0)
  | none =>
    let lb := sortLeaderboard (buildEntries tf startTs users ocs)
    (lb, cacheSet now c k lb, 1, buildCalls tf startTs users ocs)

/-- A cache whose every entry was written by the query handler, i.e.
whose keys are all of the timeframe-qualified shape
`leaderboard:<squad>:<timeframe>` — the only `pnlCache.set` call in the
router.  Each abstract entry carries (squad id, timeframe) and the
stored value/expiry. -/
def queryShapedCache (entries : List ((ℕ × String) × LB × ℤ)) : Cache :=
  entries.map fun e => (lbCacheKey e.1.1 e.1.2, e.2)

/-- The leaderboard-acquisition step of the winner handler: read the
cache under the timeframe-less key `leaderboard:<squad>`; on a hit use
the cached list, otherwise recompute fresh.  The boolean reports whether
a fresh recomputation happened. -/
def winnerLeaderboardSource (now : ℤ) (c : Cache) (squadId : ℕ) (fresh : LB) : LB × Bool :=
  match cacheGet now c (winnerCacheKey squadId) with
  | some v => (v, false)
  | none => (fresh, true)

/-- An entry of the winner handler's fresh recomputation (lines 562-615):
no avatar, no time window, open-position value always included. -/
structure WinnerEntry where
  evmAddress : String
  username : String
  totalLivePnl : ℚ
deriving DecidableEq, Repr

/-- The per-member closure of the winner handler's fresh recomputation. -/
def winnerMemberEntry (u : User) (oc : FetchOutcome) : WinnerEntry × ℕ :=
  if strTruthy u.polymarketUserAddress then
    match oc with
    | .throws => (⟨u.evmAddress, jsOrStr u.username "Anonymous", 0⟩, 2)
    | .httpError => (⟨u.evmAddress, jsOrStr u.username "Anonymous", 0⟩, 2)
    | .success closed valueData =>
      (⟨u.evmAddress, jsOrStr u.username "Anonymous",
        round2 (realizedSum closed + valueData.getD 0)⟩, 2)
  else
    (⟨u.evmAddress, jsOrStr u.username "Anonymous", 0⟩, 0)

/-- Stable descending sort of the winner handler
(`leaderboard.sort((a, b) => b.totalLivePnl - a.totalLivePnl)`). -/
def sortWinnerEntries (l : List WinnerEntry) : List WinnerEntry :=
  l.mergeSort fun a b => decide (b.totalLivePnl ≤ a.totalLivePnl)

/-- The winner handler's fresh leaderboard computation. -/
def winnerFreshLeaderboard (users : List User) (ocs : User → FetchOutcome) :
    List WinnerEntry :=
  sortWinnerEntries (users.map fun u => (winnerMemberEntry u (ocs u)).1)

/-- `1000 * 60 * 60 * 24 * 7`, the `oneWeek` constant of the winner
handler, in milliseconds. -/
def oneWeekMs : ℕ := 1000 * 60 * 60 * 24 * 7

/-- The winner handler's week number as a function of the milliseconds
elapsed since January 1st, 00:00 of the current year
(`Math.floor((now - startOfYear) / oneWeek) + 1`). -/
def weekNumber (msSinceYearStart : ℕ) : ℕ := msSinceYearStart / oneWeekMs + 1

/-- Zero-based day-of-year index: whole days elapsed since January 1st,
00:00 of the current year. -/
def dayOfYearIndex (msSinceYearStart : ℕ) : ℕ := msSinceYearStart / 86400000

/-- A row of the `squad_winners` table. -/
structure WinnerRecord where
  squadId : ℕ
  winnerAddress : String
  week : ℕ
  pnl : ℚ
deriving DecidableEq, Repr

/-- The `(squadId, week)` equality filter used by both the existence
lookup and the delete of the winner handler. -/
def winnerKeyMatch (sq wk : ℕ) (r : WinnerRecord) : Bool :=
  decide (r.squadId = sq) && decide (r.week = wk)

/-- The `.select().eq().eq().single()` lookup: supabase `single()` errors
unless exactly one row matches, and the handler reads only `data`
(which is null on error). -/
def findSingleWinner (st : List WinnerRecord) (sq wk : ℕ) : Option WinnerRecord :=
  match st.filter (winnerKeyMatch sq wk) with
  | [r] => some r
  | _ => none

/-- The `.delete().eq('squadId', sq).eq('week', wk)` call: removes every
matching row. -/
def deleteWinners (st : List WinnerRecord) (sq wk : ℕ) : List WinnerRecord :=
  st.filter fun r => !(winnerKeyMatch sq wk r)

/-- The `.insert({...})` call: appends one row. -/
def insertWinner (st : List WinnerRecord) (r : WinnerRecord) : List WinnerRecord :=
  st ++ [r]

/-- The persistence sequence of the winner handler: look up an existing
`(squad, week)` record with `single()`; if one is found, delete the
matching rows; then insert the new winner row. -/
def calculateWinnerStore (st : List WinnerRecord) (sq wk : ℕ) (addr : String) (pnl : ℚ) :
    List WinnerRecord :=
  let st2 :=
    match findSingleWinner st sq wk with
    | some _ => deleteWinners st sq wk
    | none => st
  insertWinner st2 ⟨sq, addr, wk, pnl⟩

/-- Whole cents of a nonnegative rational, rounded as ECMAScript
`toFixed(2)` rounds (nearest, ties to the larger value). -/
def centsOf (q : ℚ) : ℕ := (⌊q * 100 + 1 / 2⌋).toNat

/-- The two fractional digits of `q.toFixed(2)` for nonnegative `q`. -/
def fracStr (q : ℚ) : String :=
  ⟨[decDigitChar (centsOf q / 10 % 10), decDigitChar (centsOf q % 10)]⟩

/-- `q.toFixed(2)` for nonnegative `q`: integer part, a dot, exactly two
fractional digits. -/
def toFixed2 (q : ℚ) : String :=
  natToDecString (centsOf q / 100) ++ "." ++ fracStr q

/-- `pnlDisplay` of the winner handler:
`pnl >= 0 ? +$pnl.toFixed(2) : -$Math.abs(pnl).toFixed(2)` (with a
dollar sign after the sign character). -/
def pnlDisplay (pnl : ℚ) : String :=
  if 0 ≤ pnl then "+$" ++ toFixed2 pnl else "-$" ++ toFixed2 (-pnl)

/-- The chat announcement text of the winner handler (byte-identical to
the source template literal, including its mis-decoded emoji bytes). -/
def winnerMessage (week : ℕ) (username : String) (pnl : ℚ) : String :=
  "üèÜ Week " ++ natToDecString week ++ " MVP: " ++ username ++ " with " ++
    pnlDisplay pnl ++ " PnL! Congratulations! üéâ"

/-- The winner handler's response after the leaderboard and week number
are known: a 500 `{error: 'Failed to save winner'}` or the winner
summary. -/
inductive WinnerResponse where
  | failure (status : ℕ) (error : String)
  | okWinner (evmAddress username : String) (pnl : ℚ) (week : ℕ)
deriving DecidableEq, Repr

/-- The persist-and-announce tail of the winner handler (lines 652-683).
`insertFails` is the database's verdict on the insert; `deliveryOk` is
whether the fire-and-forget `socket.emit('bot:broadcast', ...)` is
actually delivered — the handler never observes it.  Returns the HTTP
response and the list of `(squadId, message)` broadcast events emitted. -/
def persistAndAnnounce (winner : WinnerEntry) (week squadId : ℕ)
    (insertFails _deliveryOk : Bool) : WinnerResponse × List (ℕ × String) :=
  if insertFails then
    (.failure 500 "Failed to save winner", [])
  else
    (.okWinner winner.evmAddress winner.username winner.totalLivePnl week,
      [(squadId, winnerMessage week winner.username winner.totalLivePnl)])

/-- The squad-members lookup result inside the query handler:
a database error, a null `data`, or a list of member ids. -/
inductive MembersFetch where
  | dbError
  | nullData
  | rows (userIds : List String)
deriving DecidableEq, Repr

/-- The query handler's response type for the members branch: an early
200 response `{leaderboard: []}`, a non-2xx error, or fall-through to
the PnL computation. -/
inductive MembersBranch where
  | respondEmpty
  | respondError (status : ℕ) (message : String)
  | proceed (userIds : List String)
deriving DecidableEq, Repr

/-- Lines 360-368 of the router:
`if (membersError || !memberRows || memberRows.length === 0) return res.json({ leaderboard: [] })`. -/
def membersBranch (r : MembersFetch) : MembersBranch :=
  match r with
  | .dbError => .respondEmpty
  | .nullData => .respondEmpty
  | .rows l => if l.length = 0 then .respondEmpty else .proceed l

end PolymarketSocial

namespace PolymarketSocial

/-- Every character produced by `natToDecChars` is a decimal digit. -/
theorem mem_natToDecChars (n : ℕ) :
    ∀ c ∈ natToDecChars n, ∃ d, d < 10 ∧ c = decDigitChar d := by
  induction n using Nat.strong_induction_on with
  | _ n ih =>
    rw [natToDecChars]
    split
    · intro c hc
      rw [List.mem_singleton] at hc
      exact ⟨n, by omega, hc⟩
    · intro c hc
      rw [List.mem_append] at hc
      rcases hc with hc | hc
      · exact ih (n / 10) (Nat.div_lt_self (by omega) (by omega)) c hc
      · rw [List.mem_singleton] at hc
        exact ⟨n % 10, Nat.mod_lt _ (by omega), hc⟩

/-- The decimal expansion of a squad id contains no colon. -/
theorem colon_notMem_natToDecChars (n : ℕ) : ':' ∉ natToDecChars n := by
  intro hmem
  obtain ⟨d, hd, hc⟩ := mem_natToDecChars n ':' hmem
  interval_cases d <;> revert hc <;> decide

/-- The timeframe-qualified query cache key and the timeframe-less winner
cache key can never denote the same string: counting colons, the former
has at least two, the latter exactly one. -/
theorem lbCacheKey_ne_winnerCacheKey (sq : ℕ) (tf : String) (sq2 : ℕ) :
    lbCacheKey sq tf ≠ winnerCacheKey sq2 := by
  intro h
  have hd := congrArg String.data h
  simp only [lbCacheKey, winnerCacheKey, natToDecString, String.data_append] at hd
  have hc := congrArg (List.count ':') hd
  simp only [List.count_append] at hc
  have h1 : List.count ':' (natToDecChars sq) = 0 :=
    List.count_eq_zero.mpr (colon_notMem_natToDecChars sq)
  have h2 : List.count ':' (natToDecChars sq2) = 0 :=
    List.count_eq_zero.mpr (colon_notMem_natToDecChars sq2)
  have h3 : List.count ':' ['l', 'e', 'a', 'd', 'e', 'r', 'b', 'o', 'a', 'r', 'd', ':'] = 1 := by
    decide
  have h4 : List.count ':' [':'] = 1 := by decide
  rw [h1, h2, h3, h4] at hc
  omega

/-- `List.lookup` misses when no key matches. -/
theorem lookup_eq_none_of_ne {β : Type} (k : String) (c : List (String × β))
    (h : ∀ e ∈ c, e.1 ≠ k) : c.lookup k = none := by
  induction c with
  | nil => rfl
  | cons e rest ih =>
    have hne : (k == e.1) = false :=
      beq_eq_false_iff_ne.mpr fun hk => h e (List.mem_cons_self e rest) hk.symm
    obtain ⟨k1, v1⟩ := e
    simp only [List.lookup, hne]
    exact ih fun e2 he2 => h e2 (List.mem_cons_of_mem _ he2)

/-- A cache populated exclusively by the query handler never answers the
winner handler's timeframe-less key. -/
theorem cacheGet_queryShaped_winnerKey (now : ℤ)
    (entries : List ((ℕ × String) × LB × ℤ)) (sq2 : ℕ) :
    cacheGet now (queryShapedCache entries) (winnerCacheKey sq2) = none := by
  have hlk : (queryShapedCache entries).lookup (winnerCacheKey sq2) = none := by
    apply lookup_eq_none_of_ne
    intro e he
    simp only [queryShapedCache, List.mem_map] at he
    obtain ⟨a, _, rfl⟩ := he
    exact lbCacheKey_ne_winnerCacheKey a.1.1 a.1.2 sq2
  simp [cacheGet, hlk]

/-- Reading back a key just written: a hit with the stored value until
30000 ms after the write, a miss strictly afterwards. -/
theorem cacheGet_cacheSet_self (now t : ℤ) (c : Cache) (k : String) (v : LB) :
    cacheGet now (cacheSet t c k v) k = if t + 30000 < now then none else some v := by
  simp [cacheGet, cacheSet, List.lookup]

/-- Claim C10: in the leaderboard query, a failure of the membership-list
lookup is indistinguishable from an empty squad at the public interface:
a database error, a null row set and an empty row set all produce the
same successful `{leaderboard: []}` response (`respondEmpty`, the early
200 `{leaderboard: []}`), never the error constructor. -/
theorem claim_C10 :
    membersBranch .dbError = .respondEmpty
    ∧ membersBranch .nullData = .respondEmpty
    ∧ membersBranch (.rows []) = .respondEmpty
    ∧ membersBranch .dbError = membersBranch (.rows []) := by
  refine ⟨rfl, rfl, rfl, rfl⟩

/-- Claim C4 (amended): the week number is `floor(dayIndex / 7) + 1` for
the zero-based day-of-year index, is the same for any two instants of
the same day, and for instants within a year (at most 366 days) lies in
the range 1 to 53 — not 1 to 52 as claimed: the final day(s) of a year
fall into week 53. -/
theorem claim_C4 (ms ms2 : ℕ) (h : ms < 366 * 86400000) :
    weekNumber ms = dayOfYearIndex ms / 7 + 1
    ∧ (dayOfYearIndex ms = dayOfYearIndex ms2 → weekNumber ms = weekNumber ms2)
    ∧ 1 ≤ weekNumber ms ∧ weekNumber ms ≤ 53 := by
  have hw : ∀ k, weekNumber k = dayOfYearIndex k / 7 + 1 := by
    intro k
    rw [weekNumber, dayOfYearIndex, Nat.div_div_eq_div_mul]
    norm_num [oneWeekMs]
  have hone : oneWeekMs = 604800000 := by norm_num [oneWeekMs]
  refine ⟨hw ms, ?_, ?_, ?_⟩
  · intro he
    rw [hw ms, hw ms2, he]
  · exact Nat.le_add_left 1 _
  · rw [weekNumber, hone]
    omega

/-- Witness for C4 at a concrete instant: one hour into December 31 of a
non-leap year (day index 364), where the week number is exactly 53. -/
theorem claim_C4_witness :
    31452200000 < 366 * 86400000
    ∧ (weekNumber 31452200000 = dayOfYearIndex 31452200000 / 7 + 1
      ∧ (dayOfYearIndex 31452200000 = dayOfYearIndex 31449600000 →
          weekNumber 31452200000 = weekNumber 31449600000)
      ∧ 1 ≤ weekNumber 31452200000 ∧ weekNumber 31452200000 ≤ 53) :=
  ⟨by norm_num, claim_C4 31452200000 31449600000 (by norm_num)⟩

/-- Claim C4 counterexample: at any instant of the last day of a
non-leap year — 364 whole days after January 1st, e.g. December 31 of
2025 — the handler computes week `floor(364 * 86400000 / oneWeek) + 1 = 53`,
outside the claimed range 1 to 52. -/
theorem claim_C4_counterexample :
    weekNumber (364 * 86400000) = 53 ∧ ¬ weekNumber (364 * 86400000) ≤ 52 := by
  constructor
  · decide
  · decide

/-- The descending-by-key comparator is transitive. -/
theorem keyLe_trans {α : Type} (key : α → ℚ) :
    ∀ a b c : α, (fun a b => decide (key b ≤ key a)) a b →
      (fun a b => decide (key b ≤ key a)) b c →
      (fun a b => decide (key b ≤ key a)) a c := by
  intro a b c hab hbc
  simp only [decide_eq_true_eq] at hab hbc ⊢
  exact le_trans hbc hab

/-- The descending-by-key comparator is total. -/
theorem keyLe_total {α : Type} (key : α → ℚ) :
    ∀ a b : α, (fun a b => decide (key b ≤ key a)) a b
      || (fun a b => decide (key b ≤ key a)) b a := by
  intro a b
  simp only [Bool.or_eq_true, decide_eq_true_eq]
  exact le_total (key b) (key a)

/-- Merge-sorting by a descending key yields a list that is pairwise
descending in that key. -/
theorem pairwise_mergeSort_key {α : Type} (key : α → ℚ) (l : List α) :
    (l.mergeSort fun a b => decide (key b ≤ key a)).Pairwise
      (fun a b => key b ≤ key a) := by
  have h := List.sorted_mergeSort (keyLe_trans key) (keyLe_total key) l
  exact h.imp fun hb => of_decide_eq_true hb

/-- Stability of the descending merge sort, in filter form: the elements
with any fixed key value appear in the sorted output exactly in their
input order. -/
theorem filter_mergeSort_key {α : Type} (key : α → ℚ) (c : ℚ) (l : List α) :
    (l.mergeSort fun a b => decide (key b ≤ key a)).filter
        (fun e => decide (key e = c))
      = l.filter fun e => decide (key e = c) := by
  have hmemp : ∀ a ∈ l.filter (fun e => decide (key e = c)), (decide (key a = c)) = true :=
    fun a ha => (List.mem_filter.mp ha).2
  have hpair : (l.filter fun e => decide (key e = c)).Pairwise
      (fun a b => decide (key b ≤ key a) = true) := by
    apply List.pairwise_of_forall_mem_list
    intro a ha b hb
    have hka : key a = c := of_decide_eq_true (List.mem_filter.mp ha).2
    have hkb : key b = c := of_decide_eq_true (List.mem_filter.mp hb).2
    simp [hka, hkb]
  have hsub : (l.filter fun e => decide (key e = c)).Sublist
      (l.mergeSort fun a b => decide (key b ≤ key a)) :=
    List.sublist_mergeSort (keyLe_trans key) (keyLe_total key) hpair
      (List.filter_sublist l)
  have hsub2 : (l.filter fun e => decide (key e = c)).Sublist
      ((l.mergeSort fun a b => decide (key b ≤ key a)).filter
        fun e => decide (key e = c)) := by
    have h2 := hsub.filter fun e => decide (key e = c)
    rwa [List.filter_eq_self.mpr hmemp] at h2
  have hlen : ((l.mergeSort fun a b => decide (key b ≤ key a)).filter
        (fun e => decide (key e = c))).length
      = (l.filter fun e => decide (key e = c)).length :=
    ((List.mergeSort_perm l fun a b => decide (key b ≤ key a)).filter
      fun e => decide (key e = c)).length_eq
  exact (hsub2.eq_of_length hlen.symm).symm

/-- Claim C7: every computed leaderboard — the query path's
`sortLeaderboard` output and the winner handler's fresh-recompute
`sortWinnerEntries` output — is sorted descending by total PnL, and
entries with exactly equal totals keep their relative arrival order
(stable sort); both path functions are exactly these sorts applied to
the per-member entry lists. -/
theorem claim_C7 (l : List LeaderboardEntry) (lw : List WinnerEntry) (c : ℚ)
    (now : ℤ) (sq : ℕ) (tfq : Option String) (startTs : Option ℤ)
    (users : List User) (ocs : User → FetchOutcome) :
    (sortLeaderboard l).Pairwise (fun a b => b.totalLivePnl ≤ a.totalLivePnl)
    ∧ (sortLeaderboard l).filter (fun e => decide (e.totalLivePnl = c))
        = l.filter (fun e => decide (e.totalLivePnl = c))
    ∧ (sortWinnerEntries lw).Pairwise (fun a b => b.totalLivePnl ≤ a.totalLivePnl)
    ∧ (sortWinnerEntries lw).filter (fun e => decide (e.totalLivePnl = c))
        = lw.filter (fun e => decide (e.totalLivePnl = c))
    ∧ (leaderboardQuery now [] sq tfq startTs users ocs).1
        = sortLeaderboard (buildEntries (effTimeframe tfq) startTs users ocs)
    ∧ winnerFreshLeaderboard users ocs
        = sortWinnerEntries (users.map fun u => (winnerMemberEntry u (ocs u)).1) := by
  refine ⟨pairwise_mergeSort_key (fun e => e.totalLivePnl) l,
    filter_mergeSort_key (fun e => e.totalLivePnl) c l,
    pairwise_mergeSort_key (fun e => e.totalLivePnl) lw,
    filter_mergeSort_key (fun e => e.totalLivePnl) c lw, ?_, rfl⟩
  simp [leaderboardQuery, cacheGet, List.lookup]

/-- Claim C2: with an active window cutoff `s` (timeframe daily or
weekly), the filtered closed positions exclude every position with a
missing timestamp, a falsy (zero) timestamp or a timestamp below the
cutoff, and include every listed position with timestamp at or above the
cutoff; with no cutoff (timeframe all), the fetched positions pass
through unchanged, missing timestamps included. -/
theorem claim_C2 (s : ℤ) (hs : 0 < s) (l : List ClosedPosition)
    (p : ClosedPosition) (t : ℤ) (closed : Option (List ClosedPosition)) :
    (p.timestamp = none → p ∉ (filteredClosedPositions (some s) (some l)).getD [])
    ∧ (p.timestamp = some 0 → p ∉ (filteredClosedPositions (some s) (some l)).getD [])
    ∧ (p.timestamp = some t → t < s →
        p ∉ (filteredClosedPositions (some s) (some l)).getD [])
    ∧ (p.timestamp = some t → s ≤ t → p ∈ l →
        p ∈ (filteredClosedPositions (some s) (some l)).getD [])
    ∧ filteredClosedPositions none closed = closed := by
  have hsne : s ≠ 0 := by omega
  have hfe : (filteredClosedPositions (some s) (some l)).getD []
      = l.filter (keepsPosition s) := by
    simp [filteredClosedPositions, hsne]
  rw [hfe]
  refine ⟨?_, ?_, ?_, ?_, rfl⟩
  · intro ht hmem
    have hk := List.of_mem_filter hmem
    simp [keepsPosition, ht] at hk
  · intro ht hmem
    have hk := List.of_mem_filter hmem
    simp [keepsPosition, ht] at hk
  · intro ht htl hmem
    have hk := List.of_mem_filter hmem
    simp only [keepsPosition, ht] at hk
    by_cases hne : t = 0
    · rw [if_pos hne] at hk
      exact absurd hk (by simp)
    · rw [if_neg hne] at hk
      have := of_decide_eq_true hk
      omega
  · intro ht hst hmem
    apply List.mem_filter.mpr
    refine ⟨hmem, ?_⟩
    simp only [keepsPosition, ht]
    rw [if_neg (by omega)]
    exact decide_eq_true hst

/-- Witness for C2: cutoff 10 over a four-position list exercising all
four timestamp shapes. -/
theorem claim_C2_witness :
    ((⟨some 1, none⟩ : ClosedPosition).timestamp = none →
      (⟨some 1, none⟩ : ClosedPosition) ∉
        (filteredClosedPositions (some 10)
          (some [⟨some 1, none⟩, ⟨some 2, some 0⟩, ⟨some 3, some 5⟩,
            ⟨some 4, some 10⟩])).getD [])
    ∧ ((⟨some 1, none⟩ : ClosedPosition).timestamp = some 0 →
      (⟨some 1, none⟩ : ClosedPosition) ∉
        (filteredClosedPositions (some 10)
          (some [⟨some 1, none⟩, ⟨some 2, some 0⟩, ⟨some 3, some 5⟩,
            ⟨some 4, some 10⟩])).getD [])
    ∧ ((⟨some 1, none⟩ : ClosedPosition).timestamp = some 5 → (5 : ℤ) < 10 →
      (⟨some 1, none⟩ : ClosedPosition) ∉
        (filteredClosedPositions (some 10)
          (some [⟨some 1, none⟩, ⟨some 2, some 0⟩, ⟨some 3, some 5⟩,
            ⟨some 4, some 10⟩])).getD [])
    ∧ ((⟨some 1, none⟩ : ClosedPosition).timestamp = some 5 → (10 : ℤ) ≤ 5 →
      (⟨some 1, none⟩ : ClosedPosition) ∈
        [⟨some 1, none⟩, ⟨some 2, some 0⟩, ⟨some 3, some 5⟩, ⟨some 4, some 10⟩] →
      (⟨some 1, none⟩ : ClosedPosition) ∈
        (filteredClosedPositions (some 10)
          (some [⟨some 1, none⟩, ⟨some 2, some 0⟩, ⟨some 3, some 5⟩,
            ⟨some 4, some 10⟩])).getD [])
    ∧ filteredClosedPositions none (some [⟨some 9, none⟩]) = some [⟨some 9, none⟩] :=
  claim_C2 10 (by norm_num) _ ⟨some 1, none⟩ 5 (some [⟨some 9, none⟩])

/-- Claim C1: for a member whose market-data fetches succeed, the query
handler's total is `round2(realized + unrealized)` when the timeframe is
`all`, and `round2(realized)` — independent of the fetched open-position
value — when it is `daily` or `weekly`; and the per-member closure's
entry carries exactly this total. -/
theorem claim_C1 (tf : String) (startTs : Option ℤ)
    (closed : Option (List ClosedPosition)) (valueData valueData2 : Option ℚ)
    (u : User) (htf : tf = "daily" ∨ tf = "weekly")
    (hu : strTruthy u.polymarketUserAddress = true) :
    totalLivePnlOf "all" startTs closed valueData
        = round2 (realizedSum (filteredClosedPositions startTs closed) + valueData.getD 0)
    ∧ totalLivePnlOf tf startTs closed valueData
        = round2 (realizedSum (filteredClosedPositions startTs closed))
    ∧ totalLivePnlOf tf startTs closed valueData
        = totalLivePnlOf tf startTs closed valueData2
    ∧ (memberEntry tf startTs u (.success closed valueData)).1.totalLivePnl
        = totalLivePnlOf tf startTs closed valueData
    ∧ (memberEntry "all" startTs u (.success closed valueData)).1.totalLivePnl
        = totalLivePnlOf "all" startTs closed valueData := by
  have hne : tf ≠ "all" := by
    rcases htf with h | h <;> subst h <;> decide
  refine ⟨?_, ?_, ?_, ?_, ?_⟩
  · simp [totalLivePnlOf, openPositionsValue]
  · simp [totalLivePnlOf, openPositionsValue, hne]
  · simp [totalLivePnlOf, openPositionsValue, hne]
  · simp [memberEntry, hu, baseEntry]
  · simp [memberEntry, hu, baseEntry]

/-- Witness for C1: timeframe daily with one in-window closed position
(realized 3), fetched open value 4 against alternative 5. -/
theorem claim_C1_witness :
    totalLivePnlOf "all" (some 100) (some [⟨some 3, some 150⟩]) (some 4)
        = round2 (realizedSum
            (filteredClosedPositions (some 100) (some [⟨some 3, some 150⟩]))
          + (some (4 : ℚ)).getD 0)
    ∧ totalLivePnlOf "daily" (some 100) (some [⟨some 3, some 150⟩]) (some 4)
        = round2 (realizedSum
            (filteredClosedPositions (some 100) (some [⟨some 3, some 150⟩])))
    ∧ totalLivePnlOf "daily" (some 100) (some [⟨some 3, some 150⟩]) (some 4)
        = totalLivePnlOf "daily" (some 100) (some [⟨some 3, some 150⟩]) (some 5)
    ∧ (memberEntry "daily" (some 100) ⟨"0xA", some "alice", none, some "0xP"⟩
        (.success (some [⟨some 3, some 150⟩]) (some 4))).1.totalLivePnl
        = totalLivePnlOf "daily" (some 100) (some [⟨some 3, some 150⟩]) (some 4)
    ∧ (memberEntry "all" (some 100) ⟨"0xA", some "alice", none, some "0xP"⟩
        (.success (some [⟨some 3, some 150⟩]) (some 4))).1.totalLivePnl
        = totalLivePnlOf "all" (some 100) (some [⟨some 3, some 150⟩]) (some 4) :=
  claim_C1 "daily" (some 100) (some [⟨some 3, some 150⟩]) (some 4) (some 5)
    ⟨"0xA", some "alice", none, some "0xP"⟩ (Or.inl rfl) (by decide)

/-- Claim C6: a member with no (falsy) trading identity yields an entry
with total PnL exactly 0 and zero network calls; a member whose fetches
throw or return a non-success status yields an entry with total PnL 0;
the batch never fails — it produces exactly one entry per member, in
order, for any combination of outcomes. -/
theorem claim_C6 (tf : String) (startTs : Option ℤ) (u : User) (oc : FetchOutcome)
    (users : List User) (ocs : User → FetchOutcome) (i : ℕ) :
    (strTruthy u.polymarketUserAddress = false →
      memberEntry tf startTs u oc = (baseEntry u 0, 0))
    ∧ (oc = .throws → (memberEntry tf startTs u oc).1 = baseEntry u 0)
    ∧ (oc = .httpError → (memberEntry tf startTs u oc).1 = baseEntry u 0)
    ∧ (baseEntry u 0).totalLivePnl = 0
    ∧ (buildEntries tf startTs users ocs).length = users.length
    ∧ (buildEntries tf startTs users ocs)[i]?
        = (users[i]?).map fun w => (memberEntry tf startTs w (ocs w)).1 := by
  refine ⟨?_, ?_, ?_, rfl, ?_, ?_⟩
  · intro h
    simp [memberEntry, h]
  · intro h
    subst h
    by_cases h2 : strTruthy u.polymarketUserAddress <;> simp [memberEntry, h2]
  · intro h
    subst h
    by_cases h2 : strTruthy u.polymarketUserAddress <;> simp [memberEntry, h2]
  · simp [buildEntries]
  · simp [buildEntries]

/-- Witness for C6: a two-member squad whose first member has no trading
identity and whose second member's fetches throw. -/
theorem claim_C6_witness :
    (strTruthy (⟨"0xB", none, none, none⟩ : User).polymarketUserAddress = false →
      memberEntry "all" none ⟨"0xB", none, none, none⟩ .throws
        = (baseEntry ⟨"0xB", none, none, none⟩ 0, 0))
    ∧ (FetchOutcome.throws = .throws →
      (memberEntry "all" none (⟨"0xB", none, none, none⟩ : User) .throws).1
        = baseEntry ⟨"0xB", none, none, none⟩ 0)
    ∧ (FetchOutcome.throws = .httpError →
      (memberEntry "all" none (⟨"0xB", none, none, none⟩ : User) .throws).1
        = baseEntry ⟨"0xB", none, none, none⟩ 0)
    ∧ (baseEntry (⟨"0xB", none, none, none⟩ : User) 0).totalLivePnl = 0
    ∧ (buildEntries "all" none
        [⟨"0xB", none, none, none⟩, ⟨"0xC", some "carl", none, some "0xQ"⟩]
        fun _ => .throws).length
        = ([⟨"0xB", none, none, none⟩, ⟨"0xC", some "carl", none, some "0xQ"⟩]
            : List User).length
    ∧ (buildEntries "all" none
        [⟨"0xB", none, none, none⟩, ⟨"0xC", some "carl", none, some "0xQ"⟩]
        fun _ => .throws)[1]?
        = (([⟨"0xB", none, none, none⟩, ⟨"0xC", some "carl", none, some "0xQ"⟩]
            : List User)[1]?).map
            fun w => (memberEntry "all" none w ((fun _ => FetchOutcome.throws) w)).1 :=
  claim_C6 "all" none ⟨"0xB", none, none, none⟩ .throws
    [⟨"0xB", none, none, none⟩, ⟨"0xC", some "carl", none, some "0xQ"⟩]
    (fun _ => .throws) 1

/-- Claim C3: starting from any store satisfying the at-most-one-record
invariant for `(squad, week)`, a successful `calculateWinner` persistence
leaves exactly one record for that pair, carrying the new winner's PnL;
and when a record pre-existed, the store first passes through the
delete before the insert. -/
theorem claim_C3 (st : List WinnerRecord) (sq wk : ℕ) (addr : String) (pnl : ℚ)
    (h : (st.filter (winnerKeyMatch sq wk)).length ≤ 1) :
    (calculateWinnerStore st sq wk addr pnl).filter (winnerKeyMatch sq wk)
        = [⟨sq, addr, wk, pnl⟩]
    ∧ ((findSingleWinner st sq wk).isSome = true →
        calculateWinnerStore st sq wk addr pnl
          = insertWinner (deleteWinners st sq wk) ⟨sq, addr, wk, pnl⟩) := by
  have hnew : winnerKeyMatch sq wk ⟨sq, addr, wk, pnl⟩ = true := by
    simp [winnerKeyMatch]
  cases hq : st.filter (winnerKeyMatch sq wk) with
  | nil =>
    have hfind : findSingleWinner st sq wk = none := by
      simp [findSingleWinner, hq]
    constructor
    · simp [calculateWinnerStore, hfind, insertWinner, List.filter_append, hq, hnew]
    · intro hsome
      rw [hfind] at hsome
      simp at hsome
  | cons r rest =>
    have hrest : rest = [] := by
      rw [hq] at h
      simp at h
      exact h
    subst hrest
    have hfind : findSingleWinner st sq wk = some r := by
      simp [findSingleWinner, hq]
    have hdel : (deleteWinners st sq wk).filter (winnerKeyMatch sq wk) = [] := by
      rw [deleteWinners, List.filter_filter]
      have : ∀ a : WinnerRecord,
          (winnerKeyMatch sq wk a && !winnerKeyMatch sq wk a) = false := by
        intro a
        cases winnerKeyMatch sq wk a <;> rfl
      simp [this]
    constructor
    · simp [calculateWinnerStore, hfind, insertWinner, List.filter_append, hdel, hnew]
    · intro _
      simp [calculateWinnerStore, hfind]

/-- Witness for C3: a store holding one old winner record for squad 7,
week 3 (and an unrelated record for squad 8), replaced by a new winner. -/
theorem claim_C3_witness :
    (calculateWinnerStore [⟨7, "0xOLD", 3, 1⟩, ⟨8, "0xZ", 3, 2⟩] 7 3 "0xNEW" 5).filter
        (winnerKeyMatch 7 3)
        = [⟨7, "0xNEW", 3, 5⟩]
    ∧ ((findSingleWinner [⟨7, "0xOLD", 3, 1⟩, ⟨8, "0xZ", 3, 2⟩] 7 3).isSome = true →
        calculateWinnerStore [⟨7, "0xOLD", 3, 1⟩, ⟨8, "0xZ", 3, 2⟩] 7 3 "0xNEW" 5
          = insertWinner (deleteWinners [⟨7, "0xOLD", 3, 1⟩, ⟨8, "0xZ", 3, 2⟩] 7 3)
              ⟨7, "0xNEW", 3, 5⟩) :=
  claim_C3 [⟨7, "0xOLD", 3, 1⟩, ⟨8, "0xZ", 3, 2⟩] 7 3 "0xNEW" 5 (by
    simp [winnerKeyMatch])

/-- Claim C5: a leaderboard query within 30 seconds of a prior cache
write for the same (squad, timeframe) returns the previously cached
value with zero fresh computations and zero upstream calls and leaves
the cache untouched; a query more than 30 seconds after the write misses
and performs exactly one fresh computation, whose result is written back
under the same key — overwriting the prior entry and restarting the
30-second window. -/
theorem claim_C5 (now t0 now2 : ℤ) (c0 : Cache) (sq : ℕ) (tfq : Option String)
    (v : LB) (startTs : Option ℤ) (users : List User) (ocs : User → FetchOutcome) :
    (now ≤ t0 + 30000 →
      leaderboardQuery now (cacheSet t0 c0 (lbCacheKey sq (effTimeframe tfq)) v)
          sq tfq startTs users ocs
        = (v, cacheSet t0 c0 (lbCacheKey sq (effTimeframe tfq)) v, 0, 0))
    ∧ (t0 + 30000 < now →
      leaderboardQuery now (cacheSet t0 c0 (lbCacheKey sq (effTimeframe tfq)) v)
          sq tfq startTs users ocs
        = (sortLeaderboard (buildEntries (effTimeframe tfq) startTs users ocs),
            cacheSet now (cacheSet t0 c0 (lbCacheKey sq (effTimeframe tfq)) v)
              (lbCacheKey sq (effTimeframe tfq))
              (sortLeaderboard (buildEntries (effTimeframe tfq) startTs users ocs)),
            1, buildCalls (effTimeframe tfq) startTs users ocs)
      ∧ (now2 ≤ now + 30000 →
          cacheGet now2
              (cacheSet now (cacheSet t0 c0 (lbCacheKey sq (effTimeframe tfq)) v)
                (lbCacheKey sq (effTimeframe tfq))
                (sortLeaderboard (buildEntries (effTimeframe tfq) startTs users ocs)))
              (lbCacheKey sq (effTimeframe tfq))
            = some (sortLeaderboard (buildEntries (effTimeframe tfq) startTs users ocs)))) := by
  constructor
  · intro h
    have hg : cacheGet now (cacheSet t0 c0 (lbCacheKey sq (effTimeframe tfq)) v)
        (lbCacheKey sq (effTimeframe tfq)) = some v := by
      rw [cacheGet_cacheSet_self, if_neg (by omega)]
    simp [leaderboardQuery, hg]
  · intro h
    have hg : cacheGet now (cacheSet t0 c0 (lbCacheKey sq (effTimeframe tfq)) v)
        (lbCacheKey sq (effTimeframe tfq)) = none := by
      rw [cacheGet_cacheSet_self, if_pos h]
    refine ⟨by simp [leaderboardQuery, hg], ?_⟩
    intro h2
    rw [cacheGet_cacheSet_self, if_neg (by omega)]

/-- Witness for C5: a write at t=0 read back at t=10000 ms (hit) and at
t=40000 ms (miss with write-back, readable again at t=69000 ms). -/
theorem claim_C5_witness :
    leaderboardQuery 10000 (cacheSet 0 [] (lbCacheKey 5 (effTimeframe none)) [])
        5 none none [] (fun _ => .throws)
      = ([], cacheSet 0 [] (lbCacheKey 5 (effTimeframe none)) [], 0, 0)
    ∧ (leaderboardQuery 40000 (cacheSet 0 [] (lbCacheKey 5 (effTimeframe none)) [])
          5 none none [] (fun _ => .throws)
        = (sortLeaderboard (buildEntries (effTimeframe none) none [] (fun _ => .throws)),
            cacheSet 40000 (cacheSet 0 [] (lbCacheKey 5 (effTimeframe none)) [])
              (lbCacheKey 5 (effTimeframe none))
              (sortLeaderboard (buildEntries (effTimeframe none) none [] (fun _ => .throws))),
            1, buildCalls (effTimeframe none) none [] (fun _ => .throws))
      ∧ cacheGet 69000
            (cacheSet 40000 (cacheSet 0 [] (lbCacheKey 5 (effTimeframe none)) [])
              (lbCacheKey 5 (effTimeframe none))
              (sortLeaderboard (buildEntries (effTimeframe none) none [] (fun _ => .throws))))
            (lbCacheKey 5 (effTimeframe none))
          = some (sortLeaderboard (buildEntries (effTimeframe none) none [] (fun _ => .throws)))) :=
  ⟨(claim_C5 10000 0 0 [] 5 none [] none [] (fun _ => .throws)).1 (by norm_num),
    ((claim_C5 40000 0 69000 [] 5 none [] none [] (fun _ => .throws)).2 (by norm_num)).1,
    (((claim_C5 40000 0 69000 [] 5 none [] none [] (fun _ => .throws)).2 (by norm_num)).2
      (by norm_num))⟩

/-- Claim C8: if persisting the winner fails, the caller gets a 500
server error and no announcement is emitted; if it succeeds, exactly one
announcement is emitted to the squad's chat channel carrying the
winner's display name, the week number and the PnL with an explicit
sign prefix and exactly two decimal digits, and the winner summary is
returned identically whether or not the announcement is delivered. -/
theorem claim_C8 (winner : WinnerEntry) (week squadId : ℕ) (d d2 : Bool)
    (u : String) (p q : ℚ) :
    persistAndAnnounce winner week squadId true d
        = (.failure 500 "Failed to save winner", [])
    ∧ persistAndAnnounce winner week squadId false d
        = (.okWinner winner.evmAddress winner.username winner.totalLivePnl week,
            [(squadId, winnerMessage week winner.username winner.totalLivePnl)])
    ∧ persistAndAnnounce winner week squadId false d
        = persistAndAnnounce winner week squadId false d2
    ∧ winnerMessage week u p
        = "üèÜ Week " ++ natToDecString week ++ " MVP: " ++ u ++ " with "
            ++ pnlDisplay p ++ " PnL! Congratulations! üéâ"
    ∧ (0 ≤ p → pnlDisplay p = "+$" ++ toFixed2 p)
    ∧ (p < 0 → pnlDisplay p = "-$" ++ toFixed2 (-p))
    ∧ toFixed2 q = natToDecString (centsOf q / 100) ++ "." ++ fracStr q
    ∧ (fracStr q).length = 2 := by
  refine ⟨rfl, rfl, rfl, rfl, ?_, ?_, rfl, rfl⟩
  · intro hp
    rw [pnlDisplay, if_pos hp]
  · intro hp
    rw [pnlDisplay, if_neg (by exact not_le.mpr hp)]

/-- Witness for C8: winner carol with PnL 5 for squad 7, week 3, one
positive and one negative display. -/
theorem claim_C8_witness :
    persistAndAnnounce ⟨"0xC", "carol", 5⟩ 3 7 true false
        = (.failure 500 "Failed to save winner", [])
    ∧ persistAndAnnounce ⟨"0xC", "carol", 5⟩ 3 7 false false
        = (.okWinner (WinnerEntry.mk "0xC" "carol" 5).evmAddress
            (WinnerEntry.mk "0xC" "carol" 5).username
            (WinnerEntry.mk "0xC" "carol" 5).totalLivePnl 3,
            [(7, winnerMessage 3 (WinnerEntry.mk "0xC" "carol" 5).username
                (WinnerEntry.mk "0xC" "carol" 5).totalLivePnl)])
    ∧ pnlDisplay 5 = "+$" ++ toFixed2 5
    ∧ pnlDisplay (-3) = "-$" ++ toFixed2 (-(-3)) :=
  ⟨(claim_C8 ⟨"0xC", "carol", 5⟩ 3 7 false true "dave" 5 1).1,
    (claim_C8 ⟨"0xC", "carol", 5⟩ 3 7 false true "dave" 5 1).2.1,
    (claim_C8 ⟨"0xC", "carol", 5⟩ 3 7 false true "dave" 5 1).2.2.2.2.1 (by norm_num),
    (claim_C8 ⟨"0xC", "carol", 5⟩ 3 7 false true "dave" (-3) 1).2.2.2.2.2.1 (by norm_num)⟩

/-- Claim C9: the query handler's cache key always carries a non-empty
timeframe segment and can never equal the winner handler's
timeframe-less key; hence on any cache populated solely by the query
handler's writes, the winner handler's lookup misses and the winner
leaderboard is always recomputed fresh; and the query handler's only
write indeed uses the timeframe-qualified key. -/
theorem claim_C9 (now : ℤ) (entries : List ((ℕ × String) × LB × ℤ)) (sq sq2 : ℕ)
    (tf : String) (tfq : Option String) (fresh : LB) (startTs : Option ℤ)
    (users : List User) (ocs : User → FetchOutcome) :
    lbCacheKey sq tf ≠ winnerCacheKey sq2
    ∧ effTimeframe tfq ≠ ""
    ∧ cacheGet now (queryShapedCache entries) (winnerCacheKey sq2) = none
    ∧ winnerLeaderboardSource now (queryShapedCache entries) sq2 fresh = (fresh, true)
    ∧ (leaderboardQuery now [] sq tfq startTs users ocs).2.1
        = cacheSet now [] (lbCacheKey sq (effTimeframe tfq))
            (sortLeaderboard (buildEntries (effTimeframe tfq) startTs users ocs)) := by
  refine ⟨lbCacheKey_ne_winnerCacheKey sq tf sq2, ?_, cacheGet_queryShaped_winnerKey now entries sq2, ?_, ?_⟩
  · cases tfq with
    | none => decide
    | some s =>
      by_cases hs : s = ""
      · simp [effTimeframe, hs]
      · simp [effTimeframe, hs]
  · rw [winnerLeaderboardSource, cacheGet_queryShaped_winnerKey now entries sq2]
  · simp [leaderboardQuery, cacheGet, List.lookup]

/-- Witness for C9: a one-entry cache written by the query path for
squad 5, timeframe all, read by the winner handler for the same squad. -/
theorem claim_C9_witness :
    lbCacheKey 5 "all" ≠ winnerCacheKey 5
    ∧ effTimeframe (some "weekly") ≠ ""
    ∧ cacheGet 100 (queryShapedCache [((5, "all"), [], 1000)]) (winnerCacheKey 5) = none
    ∧ winnerLeaderboardSource 100 (queryShapedCache [((5, "all"), [], 1000)]) 5 []
        = ([], true)
    ∧ (leaderboardQuery 100 [] 5 (some "weekly") none [] fun _ => .throws).2.1
        = cacheSet 100 [] (lbCacheKey 5 (effTimeframe (some "weekly")))
            (sortLeaderboard
              (buildEntries (effTimeframe (some "weekly")) none [] fun _ => .throws)) :=
  claim_C9 100 [((5, "all"), [], 1000)] 5 5 "all" (some "weekly") [] none []
    fun _ => .throws

end PolymarketSocial
